import Mathlib

/-!
Shallow embedding of the kinematic character mover and the pounce/leap arc
controller of the peach_engine repository (src/area_43/player.py,
src/area_43/entities/entity_creatures/face_spider.py,
src/area_43/entities/entity_creatures/creature_entity.py).

Real-valued quantities are modelled by `ℝ` (the Python code computes with
floats and the `math` library); the externally supplied physics world
(Bullet: contact tests, closest-ray tests, sweep tests) is modelled as an
oracle structure `World`.  Creature health bookkeeping, which is plain
arithmetic, is modelled over `ℚ` so that it stays decidable.
-/

noncomputable section

/-- Three-component vector, mirroring panda3d `Vec3`/`Point3`. -/
structure Vec3 where
  x : ℝ
  y : ℝ
  z : ℝ

/-- Componentwise addition of vectors. -/
def vadd (a b : Vec3) : Vec3 := ⟨a.x + b.x, a.y + b.y, a.z + b.z⟩

/-- Componentwise subtraction of vectors. -/
def vsub (a b : Vec3) : Vec3 := ⟨a.x - b.x, a.y - b.y, a.z - b.z⟩

/-- Scalar multiple of a vector. -/
def vscale (k : ℝ) (a : Vec3) : Vec3 := ⟨k * a.x, k * a.y, k * a.z⟩

/-- Dot product, mirroring `Vec3.dot`. -/
def vdot (a b : Vec3) : ℝ := a.x * b.x + a.y * b.y + a.z * b.z

/-- Euclidean length, mirroring `Vec3.length()`. -/
def vlen (a : Vec3) : ℝ := Real.sqrt (a.x * a.x + a.y * a.y + a.z * a.z)

/-- Two-argument arctangent, mirroring Python `math.atan2` (range (-pi, pi],
with `atan2 0 0 = 0`). -/
def atan2 (y x : ℝ) : ℝ :=
  if 0 < x then Real.arctan (y / x)
  else if x < 0 ∧ 0 ≤ y then Real.arctan (y / x) + Real.pi
  else if x < 0 ∧ y < 0 then Real.arctan (y / x) - Real.pi
  else if x = 0 ∧ 0 < y then Real.pi / 2
  else if x = 0 ∧ y < 0 then -(Real.pi / 2)
  else 0

/-- One contact reported by `physics.contactTest`, after the player code's
normal-flipping step: `normal` is the world normal as the loop body sees it,
`isSelf` tells whether the other node is the player's own body (the loop
skips those). -/
structure Contact where
  normal : Vec3
  isSelf : Bool

/-- Closest-hit result of `physics.rayTestClosest`.  `isPlayer` mirrors
`getNode().getName() == 'player_body'`, which the spider's forward ray
filters out. -/
structure RayHit where
  pos : Vec3
  normal : Vec3
  isPlayer : Bool

/-- Closest-hit result of a capsule sweep test (`hit_fraction`, `hit_normal`),
the interface named by the spec; the player code itself never performs sweeps. -/
structure SweepHit where
  fraction : ℝ
  normal : Vec3

/-- The externally supplied physics query interface (spec section 6):
an overlap/contact test at a capsule position, a closest-ray test, and a
closest-sweep test.  The components consume this interface and never
implement it, so it is modelled as an arbitrary oracle. -/
structure World where
  contacts : Vec3 → List Contact
  ray : Vec3 → Vec3 → Option RayHit
  sweep : Vec3 → Vec3 → Option SweepHit

/-! ## Player constants (Player.__init__) -/

/-- Capsule radius (`self.radius = 0.3`). -/
def player_radius : ℝ := 3 / 10

/-- Standing capsule height (`self.height = 1.8`). -/
def player_height : ℝ := 9 / 5

/-- Slope limit (`self.max_slope = 0.7`). -/
def max_slope : ℝ := 7 / 10

/-- Gravity acceleration (`self.gravity = -20.0`). -/
def gravity_acc : ℝ := -20

/-- Ground classification used by `Player._check_ground` (line 324): a hit
normal counts as ground when `normal.z >= self.max_slope`. -/
def is_ground_normal (n : Vec3) : Prop := max_slope ≤ n.z

/-- Wall classification used by `Player._test_position` (line 153): a
contact normal counts as a wall when `abs(normal.z) < self.max_slope`. -/
def is_wall_normal (n : Vec3) : Prop := |n.z| < max_slope

/-- Mutable mover state used by `_slide_move` / `_check_ground` / `update`:
position, velocity, grounded flag and the current (crouch-interpolated)
capsule height. -/
structure PState where
  pos : Vec3
  vel : Vec3
  grounded : Bool
  current_height : ℝ

/-- Quake-style velocity clipping (`Player._clip_velocity`).  Defined in the
source but never invoked by any caller. -/
def clip_velocity (velocity normal : Vec3) : Vec3 :=
  let backoff := vdot velocity normal
  if backoff < 0 then vsub velocity (vscale backoff normal)
  else velocity

section PlayerDefs

open Classical

/-- Scan of one contact list for the first wall contact: the loop body of
`Player._test_position` (skip own body, report the first contact whose
normal has `abs(normal.z) < max_slope`). -/
def first_wall_contact : List Contact → Option Vec3
  | [] => none
  | c :: rest =>
    if c.isSelf = true then first_wall_contact rest
    else if is_wall_normal c.normal then some c.normal
    else first_wall_contact rest

/-- Overlap test of `Player._test_position`: ghost capsule placed at
`(x, y, z + current_height / 2 + 0.05)`, returns `(blocked, wall_normal)`. -/
def test_position (w : World) (hgt x y z : ℝ) : Bool × Option Vec3 :=
  match first_wall_contact (w.contacts ⟨x, y, z + hgt / 2 + 1 / 20⟩) with
  | some n => (true, some n)
  | none => (false, none)

/-- Scan of one contact list for a ceiling contact: the loop body of
`Player._test_ceiling` (skip own body, blocked on the first contact whose
normal has `normal.z < -max_slope`). -/
def has_ceiling_contact : List Contact → Bool
  | [] => false
  | c :: rest =>
    if c.isSelf = true then has_ceiling_contact rest
    else if c.normal.z < -max_slope then true
    else has_ceiling_contact rest

/-- Overlap test of `Player._test_ceiling` at the same raised ghost position. -/
def test_ceiling (w : World) (hgt x y z : ℝ) : Bool :=
  has_ceiling_contact (w.contacts ⟨x, y, z + hgt / 2 + 1 / 20⟩)

/-- Offsets tested by the slide scan: `range(10, 91, 10)` degrees. -/
def offsets_deg : List ℕ := [10, 20, 30, 40, 50, 60, 70, 80, 90]

/-- Angle scan of `Player._slide_move`'s blocked branch: for each offset,
test the left then the right deflected destination; return the first
unblocked `(test_angle, offset_rad)`, or `none` when every angle is blocked. -/
def slide_scan (w : World) (hgt px py pz move_angle move_len : ℝ) :
    List ℕ → Option (ℝ × ℝ)
  | [] => none
  | d :: rest =>
    let offset_rad := (d : ℝ) * Real.pi / 180
    let aL := move_angle + offset_rad
    if (test_position w hgt (px + Real.cos aL * move_len)
        (py + Real.sin aL * move_len) pz).1 = false then some (aL, offset_rad)
    else
      let aR := move_angle - offset_rad
      if (test_position w hgt (px + Real.cos aR * move_len)
          (py + Real.sin aR * move_len) pz).1 = false then some (aR, offset_rad)
      else slide_scan w hgt px py pz move_angle move_len rest

/-- Binary search of `_slide_move`'s ceiling branch: five bisection steps
refining `[low, high]`, returning the final `low`. -/
def ceiling_search (w : World) (hgt x y : ℝ) : ℝ → ℝ → ℕ → ℝ
  | low, _, 0 => low
  | low, high, n + 1 =>
    let mid := (low + high) / 2
    if test_ceiling w hgt x y mid then ceiling_search w hgt x y low mid n
    else ceiling_search w hgt x y mid high n

/-- Translation of `Player._slide_move`: horizontal movement with
destination overlap test and angle-scan sliding (corner lock zeroes the
horizontal velocity), then vertical movement with a ceiling check before
moving up. -/
def slide_move (w : World) (s : PState) (dt : ℝ) : PState :=
  let move_x := s.vel.x * dt
  let move_y := s.vel.y * dt
  let move_len := Real.sqrt (move_x * move_x + move_y * move_y)
  let s1 :=
    if 1 / 10000 ≤ move_len then
      let new_x := s.pos.x + move_x
      let new_y := s.pos.y + move_y
      if (test_position w s.current_height new_x new_y s.pos.z).1 = false then
        { s with pos := ⟨new_x, new_y, s.pos.z⟩ }
      else
        let move_angle := atan2 move_y move_x
        match slide_scan w s.current_height s.pos.x s.pos.y s.pos.z move_angle
            move_len offsets_deg with
        | some (a, off) =>
          { s with pos := ⟨s.pos.x + Real.cos a * move_len * Real.cos off,
                           s.pos.y + Real.sin a * move_len * Real.cos off,
                           s.pos.z⟩ }
        | none => { s with vel := ⟨0, 0, s.vel.z⟩ }
    else s
  if 0 < s1.vel.z then
    let move_z := s1.vel.z * dt
    let new_z := s1.pos.z + move_z
    if test_ceiling w s1.current_height s1.pos.x s1.pos.y new_z then
      let low := ceiling_search w s1.current_height s1.pos.x s1.pos.y s1.pos.z new_z 5
      { s1 with pos := ⟨s1.pos.x, s1.pos.y, low⟩, vel := ⟨s1.vel.x, s1.vel.y, 0⟩ }
    else { s1 with pos := ⟨s1.pos.x, s1.pos.y, new_z⟩ }
  else { s1 with pos := ⟨s1.pos.x, s1.pos.y, s1.pos.z + s1.vel.z * dt⟩ }

end PlayerDefs

section GroundDefs

open Classical

/-- Ray offsets of `Player._check_ground` / `_check_ceiling`: the capsule
center plus eight points around the capsule edge at 45-degree steps and
radius `self.radius * 0.8`. -/
def ground_offsets : List (ℝ × ℝ) :=
  (0, 0) :: (List.range 8).map (fun i =>
    (Real.cos ((i : ℝ) * 45 * Real.pi / 180) * player_radius * (4 / 5),
     Real.sin ((i : ℝ) * 45 * Real.pi / 180) * player_radius * (4 / 5)))

/-- Loop body of `Player._check_ground`: for each offset cast a ray from
`z + 0.5` down to `z - 0.1`; keep the highest hit whose normal has
`normal.z >= max_slope`. -/
def ground_probe (w : World) (px py pz : ℝ) : List (ℝ × ℝ) → Option ℝ → Option ℝ
  | [], best => best
  | (ox, oy) :: rest, best =>
    let best' :=
      match w.ray ⟨px + ox, py + oy, pz + 1 / 2⟩ ⟨px + ox, py + oy, pz - 1 / 10⟩ with
      | some hit =>
        if is_ground_normal hit.normal then
          match best with
          | none => some hit.pos.z
          | some b => if b < hit.pos.z then some hit.pos.z else some b
        else best
      | none => best
    ground_probe w px py pz rest best'

/-- Translation of `Player._check_ground`: multi-ray downward probe; on a
hit, set grounded and snap `position.z` up to the ground height (zeroing
vertical velocity); otherwise clear the grounded flag. -/
def check_ground (w : World) (s : PState) : PState :=
  match ground_probe w s.pos.x s.pos.y s.pos.z ground_offsets none with
  | some g =>
    if s.pos.z < g then
      { s with grounded := true, pos := ⟨s.pos.x, s.pos.y, g⟩,
               vel := ⟨s.vel.x, s.vel.y, 0⟩ }
    else { s with grounded := true }
  | none => { s with grounded := false }

/-- One physics tick of the mover, following the movement portion of
`Player.update` (apply gravity when not grounded, `_slide_move`, then
`_check_ground`). -/
def player_step (w : World) (s : PState) (dt : ℝ) : PState :=
  let s0 :=
    if s.grounded = false then
      { s with vel := ⟨s.vel.x, s.vel.y, s.vel.z + gravity_acc * dt⟩ }
    else s
  check_ground w (slide_move w s0 dt)

end GroundDefs

/-! ## Pounce/leap arc controller (FaceSpider) -/

/-- Creature states of `CreatureEntity` (`STATE_IDLE` ... `STATE_DEATH`). -/
inductive CState where
  | idle
  | walk
  | run
  | attack
  | hurt
  | death
deriving DecidableEq

/-- Spider constants from `FaceSpider.__init__`. -/
def pounce_distance : ℝ := 4

/-- Pounce movement duration (`self._pounce_duration = 0.4`). -/
def pounce_duration : ℝ := 2 / 5

/-- Arc height (`self._pounce_arc_height = 1.5`). -/
def pounce_arc_height : ℝ := 3 / 2

/-- Spider gravity (`self._gravity = 20.0`). -/
def spider_gravity : ℝ := 20

/-- Ground offset (`self._ground_offset = 0.01`). -/
def ground_offset : ℝ := 1 / 100

/-- Pounce cooldown (`self.pounce_cooldown = 2.0`). -/
def pounce_cooldown : ℝ := 2

/-- State of a `FaceSpider` as touched by the pounce controller:
position/heading, the creature state machine fields, the pounce bookkeeping
(`_is_pouncing`, `_pounce_airborne`, `_pounce_falling`, `_pounce_hit_player`,
`_pounce_is_attack`, start/target/direction, progress, vertical velocities,
cooldown timer) and the backtracking fields set on landing. -/
structure SpState where
  pos : Vec3
  heading : ℝ
  state : CState
  prev_state : Option CState
  state_time : ℝ
  pouncing : Bool
  airborne : Bool
  falling : Bool
  hit_player : Bool
  is_attack : Bool
  start_pos : Vec3
  target_pos : Vec3
  dir : Option Vec3
  progress : ℝ
  pounce_vel_z : ℝ
  vel_z : ℝ
  timer : ℝ
  backtracking : Bool
  backtrack_target : Option Vec3
  backtrack_dir : Option Vec3

/-- Translation of `FaceSpider.set_state` (animation calls are external and
carry no state tracked here): skip when already in the state and not forced,
otherwise record previous state and reset the state timer. -/
def set_state_sp (s : SpState) (new_state : CState) (force : Bool) : SpState :=
  if new_state = s.state ∧ force = false then s
  else { s with prev_state := some s.state, state := new_state, state_time := 0 }

/-- Translation of `FaceSpider._raycast_down`: ray from one unit above the
position straight down `max_dist` (default 100), returning the hit point. -/
def raycast_down (w : World) (p : Vec3) : Option Vec3 :=
  match w.ray ⟨p.x, p.y, p.z + 1⟩ ⟨p.x, p.y, p.z - 100⟩ with
  | some h => some h.pos
  | none => none

/-- Translation of `FaceSpider._raycast_forward`: ray at body height
(`z + 0.5`) along `direction * dist`; hits by the player's body are ignored,
and only hits whose normal has `abs(normal.z) < 0.5` count as walls. -/
def raycast_forward (w : World) (from_pos direction : Vec3) (dist : ℝ) :
    Bool × Option Vec3 :=
  let to_pos : Vec3 := ⟨from_pos.x + direction.x * dist,
                        from_pos.y + direction.y * dist, from_pos.z + 1 / 2⟩
  let from_check : Vec3 := ⟨from_pos.x, from_pos.y, from_pos.z + 1 / 2⟩
  match w.ray from_check to_pos with
  | some h =>
    if h.isPlayer = true then (false, none)
    else if |h.normal.z| < 1 / 2 then (true, some h.pos)
    else (false, none)
  | none => (false, none)

section SpiderDefs

open Classical

/-- Translation of `FaceSpider._start_pounce_to`: capture the start
position, compute the planar direction and clamped travel distance toward
the target (defaulting to the unit forward vector `(0, 1, 0)` when the
planar distance is within the `0.01` degeneracy tolerance), reset the
progress and vertical velocities, enter the attack state and arm the
cooldown timer. -/
def start_pounce_to (s : SpState) (target_pos : Vec3) (is_attack : Bool) : SpState :=
  let s1 := { s with pouncing := true, airborne := false, falling := false,
                     hit_player := false, is_attack := is_attack, start_pos := s.pos }
  let d : Vec3 := ⟨target_pos.x - s1.start_pos.x, target_pos.y - s1.start_pos.y, 0⟩
  let dist := vlen d
  let s2 :=
    if 1 / 100 < dist then
      let dir : Vec3 := ⟨d.x / dist, d.y / dist, d.z / dist⟩
      let travel := min pounce_distance dist
      { s1 with dir := some dir,
                target_pos := ⟨s1.start_pos.x + dir.x * travel,
                               s1.start_pos.y + dir.y * travel, s1.start_pos.z⟩,
                heading := atan2 dir.x (-dir.y) * 180 / Real.pi }
    else
      { s1 with dir := some ⟨0, 1, 0⟩, target_pos := s1.start_pos }
  let s3 := { s2 with progress := 0, pounce_vel_z := 0, vel_z := 0 }
  let s4 := set_state_sp s3 CState.attack false
  { s4 with timer := pounce_cooldown }

/-- Translation of `FaceSpider._land`: clear the pounce flags, and when the
pounce had hit the player (and a pounce direction exists) set up the
backtracking walk away from the player. -/
def spider_land (s : SpState) : SpState :=
  let s1 := { s with pouncing := false, airborne := false, falling := false, vel_z := 0 }
  if s1.hit_player = true ∧ s1.dir.isSome then
    let d := s1.dir.getD ⟨0, 1, 0⟩
    { s1 with backtracking := true,
              backtrack_target := some ⟨s1.pos.x - d.x * (3 / 2),
                                        s1.pos.y - d.y * (3 / 2),
                                        s1.pos.z - d.z * (3 / 2)⟩,
              backtrack_dir := some ⟨-d.x, -d.y, -d.z⟩ }
  else s1

/-- Vertical arc offset computed each tick of the pounce
(`arc_height = self._pounce_arc_height * math.sin(t * math.pi)`,
face_spider.py line 565). -/
def arc_offset (t : ℝ) : ℝ := pounce_arc_height * Real.sin (t * Real.pi)

/-- Forward travel distance for the current frame
(`(target - start).length() * (dt / duration)`, face_spider.py line 580). -/
def pounce_travel (s : SpState) (dt : ℝ) : ℝ :=
  vlen (vsub s.target_pos s.start_pos) * (dt / pounce_duration)

/-- Translation of `FaceSpider.update_pounce`.  The `intersects` argument
models `_intersects_player` (a geometric query against the external target
entity); the damage dealt to the target on a first intersection is a side
effect on the external entity and is not part of the spider state.  While
falling, integrate gravity and land on the probed ground; while arcing,
advance the progress, lerp horizontally, add the sine arc (blending the base
height toward freshly probed ground in the second half), stop and fall when
the forward ray reports a wall, and on completed progress land or fall. -/
def update_pounce (w : World) (intersects : Vec3 → Bool) (s : SpState) (dt : ℝ) :
    SpState :=
  if s.pouncing = false then s
  else
    let my := s.pos
    if s.falling = true then
      let vz := s.pounce_vel_z - spider_gravity * dt
      let new_z := my.z + vz * dt
      let sF := { s with pounce_vel_z := vz }
      match raycast_down w my with
      | some g =>
        if new_z ≤ g.z + ground_offset then
          spider_land { sF with pos := ⟨my.x, my.y, g.z + ground_offset⟩ }
        else { sF with pos := ⟨my.x, my.y, new_z⟩ }
      | none => { sF with pos := ⟨my.x, my.y, new_z⟩ }
    else
      let progress := s.progress + dt / pounce_duration
      let t := min progress 1
      let airborne := if 3 / 10 < t ∧ s.airborne = false then true else s.airborne
      let sA := { s with progress := progress, airborne := airborne }
      let hx := sA.start_pos.x + (sA.target_pos.x - sA.start_pos.x) * t
      let hy := sA.start_pos.y + (sA.target_pos.y - sA.start_pos.y) * t
      let hz0 := sA.start_pos.z + (sA.target_pos.z - sA.start_pos.z) * t
      let arc := arc_offset t
      let base_z :=
        if 1 / 2 < t then
          match raycast_down w ⟨hx, hy, hz0⟩ with
          | some g =>
            sA.start_pos.z + ((g.z + ground_offset) - sA.start_pos.z) * ((t - 1 / 2) / (1 / 2))
          | none => sA.start_pos.z
        else sA.start_pos.z
      let new_pos : Vec3 := ⟨hx, hy, base_z + arc⟩
      if (raycast_forward w my (sA.dir.getD ⟨0, 1, 0⟩) (pounce_travel sA dt + 3 / 10)).1 then
        { sA with falling := true, pounce_vel_z := 0 }
      else
        let sB := { sA with pos := new_pos }
        let sC :=
          if sB.hit_player = false ∧ sB.is_attack = true ∧ intersects sB.pos then
            { sB with hit_player := true }
          else sB
        if 1 ≤ t then
          match raycast_down w new_pos with
          | some g =>
            if new_pos.z ≤ g.z + ground_offset + 1 / 10 then
              spider_land { sC with pos := ⟨new_pos.x, new_pos.y, g.z + ground_offset⟩ }
            else { sC with falling := true, pounce_vel_z := 0 }
          | none => { sC with falling := true, pounce_vel_z := 0 }
        else sC

end SpiderDefs

/-- The spider is mid-arc: a pounce is active and it has not hit a wall
(spec state machine: the Arcing state). -/
def Arcing (s : SpState) : Prop := s.pouncing = true ∧ s.falling = false

/-- The spider is in the ballistic-fall phase of a pounce (spec state
machine: the Falling state). -/
def FallingS (s : SpState) : Prop := s.pouncing = true ∧ s.falling = true

section SpecModel

open Classical

/-- Sweep-and-slide mover described by the spec's words (spec.md section 4.1
steps 2-4 and claim C1), stated for comparison with the source's
`slide_move`: sweep toward the destination; with no hit accept the full
displacement; on a wall hit (normal's vertical component below the
slope-limit) move to the hit fraction minus a small epsilon, project the
remaining displacement onto the plane of the hit normal (removing the
component along the normal) and repeat for the residual, up to the given
number of iterations; on a ground-like hit stop horizontal motion. -/
def spec_slide_xy (sweep : Vec3 → Vec3 → Option SweepHit) (eps : ℝ) :
    ℕ → Vec3 → Vec3 → Vec3
  | 0, pos, _ => pos
  | n + 1, pos, disp =>
    match sweep pos (vadd pos disp) with
    | none => vadd pos disp
    | some h =>
      if h.normal.z < max_slope then
        let pos' := vadd pos (vscale (h.fraction - eps) disp)
        let remaining := vscale (1 - h.fraction) disp
        let residual := vsub remaining (vscale (vdot remaining h.normal) h.normal)
        spec_slide_xy sweep eps n pos' residual
      else pos

end SpecModel

/-! ## Concrete worlds used as witnesses and counterexamples -/

section Worlds

open Classical

/-- World with no geometry at all: no contacts, no ray hits, no sweep hits. -/
def no_hit_world : World :=
  ⟨fun _ => [], fun _ _ => none, fun _ _ => none⟩

/-- World with flat walkable ground: every downward ray reports a hit at
height 0 with the upward normal, and there are no overlap contacts. -/
def flat_world : World :=
  ⟨fun _ => [], fun a _ => some ⟨⟨a.x, a.y, 0⟩, ⟨0, 0, 1⟩, false⟩, fun _ _ => none⟩

/-- World whose contact test reports a wall (normal `(-1, 0, 0)`) at every
ghost position: the mover is boxed in on all sides. -/
def all_wall_world : World :=
  ⟨fun _ => [⟨⟨-1, 0, 0⟩, false⟩], fun _ _ => none, fun _ _ => none⟩

/-- Narrow slit corridor along the x axis: side walls leave only centers
with `abs y < 0.01` free, and an end wall blocks centers with `x >= 0.2`
(a capsule of radius 0.3 against a wall plane at `x = 0.5`).  Sweeps along
the corridor hit the end wall at fraction `0.2` with normal `(-1, 0, 0)`. -/
def slit_world : World :=
  ⟨fun p => if 1 / 5 ≤ p.x ∨ 1 / 100 ≤ |p.y| then [⟨⟨-1, 0, 0⟩, false⟩] else [],
   fun _ _ => none,
   fun _ _ => some ⟨1 / 5, ⟨-1, 0, 0⟩⟩⟩

/-- World that reports a wall contact whose normal points along `+x` (the
direction of travel) for ghost positions in the quadrant `y <= 0`,
`x >= 0.5`, and is free elsewhere. -/
def odd_normal_world : World :=
  ⟨fun p => if p.y ≤ 0 ∧ 1 / 2 ≤ p.x then [⟨⟨1, 0, 0⟩, false⟩] else [],
   fun _ _ => none, fun _ _ => none⟩

/-- World whose every ray reports a wall hit (vertical surface, normal
`(1, 0, 0)`, not the player). -/
def wall_ray_world : World :=
  ⟨fun _ => [], fun _ _ => some ⟨⟨0, 0, 0⟩, ⟨1, 0, 0⟩, false⟩, fun _ _ => none⟩

end Worlds

end

/-! ## CreatureEntity health bookkeeping (creature_entity.py), over ℚ -/

/-- State of a `CreatureEntity` as touched by `take_damage` / `heal` /
`die` / `set_state`: health, max health, alive flag and the creature state
machine fields. -/
structure CrState where
  health : ℚ
  max_health : ℚ
  alive : Bool
  state : CState
  prev_state : Option CState
  state_time : ℚ
deriving DecidableEq

/-- Constructor state of `CreatureEntity.__init__`: health 100 of 100,
alive, idle. -/
def cr_init : CrState :=
  ⟨100, 100, true, CState.idle, none, 0⟩

/-- Translation of `CreatureEntity.set_state` (called without `force` by
`take_damage` and `die`; animation calls are external): skip when already in
the state, otherwise record the previous state and reset the state timer. -/
def cr_set_state (c : CrState) (new_state : CState) : CrState :=
  if new_state = c.state then c
  else { c with prev_state := some c.state, state := new_state, state_time := 0 }

/-- Translation of `CreatureEntity.die`: clear the alive flag and enter the
death state. -/
def cr_die (c : CrState) : CrState :=
  cr_set_state { c with alive := false } CState.death

/-- Translation of `CreatureEntity.take_damage`: ignored when not alive;
otherwise subtract the amount, and either clamp to 0 and die, or enter the
hurt state. -/
def take_damage (c : CrState) (amount : ℚ) : CrState :=
  if c.alive = false then c
  else
    let h := c.health - amount
    if h ≤ 0 then cr_die { c with health := 0 }
    else cr_set_state { c with health := h } CState.hurt

/-- Translation of `CreatureEntity.heal`: add the amount, clamped to
`max_health`. -/
def cr_heal (c : CrState) (amount : ℚ) : CrState :=
  { c with health := min (c.health + amount) c.max_health }

/-- One call in a damage/heal history. -/
inductive CrOp where
  | damage (amount : ℚ)
  | heal (amount : ℚ)
deriving DecidableEq

/-- Amount carried by a call. -/
def CrOp.amount : CrOp → ℚ
  | .damage a => a
  | .heal a => a

/-- Apply one call to a creature state. -/
def cr_apply (c : CrState) : CrOp → CrState
  | .damage a => take_damage c a
  | .heal a => cr_heal c a

/-- Apply a sequence of calls, oldest first. -/
def cr_run (c : CrState) (ops : List CrOp) : CrState :=
  ops.foldl cr_apply c

/-! ## Example states used by witnesses and counterexamples -/

noncomputable section

/-- Mover at the origin moving along `+x` at unit speed, grounded, standing
height. -/
def p_unit : PState := ⟨⟨0, 0, 0⟩, ⟨1, 0, 0⟩, true, player_height⟩

/-- Mover at rest at the origin, grounded, standing height. -/
def p_rest : PState := ⟨⟨0, 0, 0⟩, ⟨0, 0, 0⟩, true, player_height⟩

/-- Mover at the origin with a tiny horizontal velocity (`1e-5` m/s), below
the slide deadzone over one second. -/
def p_tiny : PState := ⟨⟨0, 0, 0⟩, ⟨1 / 100000, 0, 0⟩, true, player_height⟩

/-- Spider at the origin in the constructor state (idle, no pounce active). -/
def sp0 : SpState :=
  ⟨⟨0, 0, 0⟩, 0, CState.idle, none, 0, false, false, false, false, false,
   ⟨0, 0, 0⟩, ⟨0, 0, 0⟩, none, 0, 0, 0, 0, false, none, none⟩

/-- Spider state right after `start_pounce_to` toward `(4, 0, 0)` (a wander
pounce, not an attack): the scenario leap of spec section 8. -/
def sp_leap : SpState := start_pounce_to sp0 ⟨4, 0, 0⟩ false

end

/-! ## Helper lemmas: creature health -/

/-- Changing creature state preserves health, max health and aliveness. -/
theorem cr_set_state_health (c : CrState) (ns : CState) :
    (cr_set_state c ns).health = c.health := by
  unfold cr_set_state; split <;> rfl

/-- Changing creature state preserves max health. -/
theorem cr_set_state_max (c : CrState) (ns : CState) :
    (cr_set_state c ns).max_health = c.max_health := by
  unfold cr_set_state; split <;> rfl

/-- Changing creature state preserves aliveness. -/
theorem cr_set_state_alive (c : CrState) (ns : CState) :
    (cr_set_state c ns).alive = c.alive := by
  unfold cr_set_state; split <;> rfl

/-- Dying preserves health. -/
theorem cr_die_health (c : CrState) : (cr_die c).health = c.health := by
  unfold cr_die; rw [cr_set_state_health]

/-- Dying preserves max health. -/
theorem cr_die_max (c : CrState) : (cr_die c).max_health = c.max_health := by
  unfold cr_die; rw [cr_set_state_max]

/-- Dying clears the alive flag. -/
theorem cr_die_alive (c : CrState) : (cr_die c).alive = false := by
  unfold cr_die; rw [cr_set_state_alive]

/-- One call with a nonnegative amount keeps health within
`[0, max_health]` and does not change max health. -/
theorem cr_apply_inv (c : CrState) (op : CrOp) (h0 : 0 ≤ c.health)
    (h1 : c.health ≤ c.max_health) (ha : 0 ≤ op.amount) :
    0 ≤ (cr_apply c op).health ∧
    (cr_apply c op).health ≤ (cr_apply c op).max_health := by
  have hmax : 0 ≤ c.max_health := le_trans h0 h1
  cases op with
  | damage a =>
    have ha' : 0 ≤ a := ha
    simp only [cr_apply, take_damage]
    by_cases hal : c.alive = false
    · rw [if_pos hal]; exact ⟨h0, h1⟩
    · rw [if_neg hal]
      by_cases hh : c.health - a ≤ 0
      · rw [if_pos hh]
        rw [cr_die_health, cr_die_max]
        exact ⟨le_refl 0, hmax⟩
      · rw [if_neg hh]
        rw [cr_set_state_health, cr_set_state_max]
        push_neg at hh
        refine ⟨le_of_lt hh, le_trans ?_ h1⟩
        show c.health - a ≤ c.health
        linarith
  | heal a =>
    have ha' : 0 ≤ a := ha
    simp only [cr_apply, cr_heal]
    exact ⟨le_min (by linarith) hmax, min_le_right _ _⟩

/-- A sequence of calls with nonnegative amounts keeps health within
`[0, max_health]`. -/
theorem cr_run_inv : ∀ (ops : List CrOp) (c : CrState), 0 ≤ c.health →
    c.health ≤ c.max_health → (∀ op ∈ ops, 0 ≤ op.amount) →
    0 ≤ (cr_run c ops).health ∧ (cr_run c ops).health ≤ (cr_run c ops).max_health
  | [], _, h0, h1, _ => ⟨h0, h1⟩
  | op :: rest, c, h0, h1, hall => by
    have hstep := cr_apply_inv c op h0 h1 (hall op (by simp))
    have := cr_run_inv rest (cr_apply c op) hstep.1 hstep.2
      (fun o ho => hall o (by simp [ho]))
    simpa [cr_run] using this

/-- C10: for every sequence of `take_damage` and `heal` calls (with
nonnegative amounts, as damage and healing amounts are) health stays within
`[0, max_health]`; `take_damage` on a creature whose alive flag is cleared
leaves the whole state unchanged; and whenever damage brings health to or
below zero, health is set to exactly 0 and the alive flag is cleared. -/
theorem C10_health_invariant :
    (∀ ops : List CrOp, (∀ op ∈ ops, 0 ≤ op.amount) →
      0 ≤ (cr_run cr_init ops).health ∧
      (cr_run cr_init ops).health ≤ (cr_run cr_init ops).max_health) ∧
    (∀ (c : CrState) (a : ℚ), c.alive = false → take_damage c a = c) ∧
    (∀ (c : CrState) (a : ℚ), c.alive = true → c.health - a ≤ 0 →
      (take_damage c a).health = 0 ∧ (take_damage c a).alive = false) := by
  refine ⟨fun ops h => cr_run_inv ops cr_init (by norm_num [cr_init])
    (by norm_num [cr_init]) h, ?_, ?_⟩
  · intro c a h
    simp only [take_damage]
    rw [if_pos h]
  · intro c a hal hh
    simp only [take_damage]
    rw [if_neg (by simp [hal]), if_pos hh]
    exact ⟨cr_die_health _, cr_die_alive _⟩

/-- Witness for C10 at a concrete call history (damage 30, heal 50,
damage 200: health 100 → 70 → 100 → dead at 0), a concrete dead creature
and a concrete overkill hit. -/
theorem C10_health_invariant_witness :
    (∀ op ∈ [CrOp.damage 30, CrOp.heal 50, CrOp.damage 200], 0 ≤ op.amount) ∧
    (0 ≤ (cr_run cr_init [CrOp.damage 30, CrOp.heal 50, CrOp.damage 200]).health ∧
      (cr_run cr_init [CrOp.damage 30, CrOp.heal 50, CrOp.damage 200]).health ≤
        (cr_run cr_init [CrOp.damage 30, CrOp.heal 50, CrOp.damage 200]).max_health) ∧
    take_damage ⟨40, 100, false, CState.death, none, 0⟩ 5 =
      ⟨40, 100, false, CState.death, none, 0⟩ ∧
    ((take_damage cr_init 150).health = 0 ∧ (take_damage cr_init 150).alive = false) := by
  refine ⟨by decide, C10_health_invariant.1 _ (by decide),
    C10_health_invariant.2.1 _ 5 rfl,
    C10_health_invariant.2.2 _ 150 rfl (by norm_num [cr_init])⟩

/-! ## C7: slope-limit classification -/

/-- C7 counterexample: the code classifies the boundary normal
`(0, 0, 0.7)` as ground even though its vertical component does not exceed
(strictly) the slope limit, and the ceiling normal `(0, 0, -1)` has
vertical component below the slope limit yet is not treated as a wall. -/
theorem C7_cex :
    (is_ground_normal ⟨0, 0, 7 / 10⟩ ∧ ¬ ((7 : ℝ) / 10 > max_slope)) ∧
    (((-1 : ℝ) < max_slope) ∧ ¬ is_wall_normal ⟨0, 0, -1⟩) := by
  refine ⟨⟨?_, ?_⟩, ?_, ?_⟩
  · show max_slope ≤ (7 : ℝ) / 10
    norm_num [max_slope]
  · norm_num [max_slope]
  · norm_num [max_slope]
  · show ¬ |(Vec3.mk 0 0 (-1)).z| < max_slope
    norm_num [max_slope]

/-- C7 amended: a probed surface is classified as ground exactly when its
normal's vertical component is at least the slope limit (`>=`, not strict),
a contact is treated as a wall exactly when the absolute value of its
normal's vertical component is below the slope limit, and no normal is ever
classified as both. -/
theorem C7_slope_classification (n : Vec3) :
    (is_ground_normal n ↔ max_slope ≤ n.z) ∧
    (is_wall_normal n ↔ |n.z| < max_slope) ∧
    ¬ (is_ground_normal n ∧ is_wall_normal n) := by
  refine ⟨Iff.rfl, Iff.rfl, ?_⟩
  rintro ⟨hg, hw⟩
  rw [is_ground_normal] at hg
  rw [is_wall_normal] at hw
  exact absurd hw (not_lt.mpr (le_trans hg (le_abs_self n.z)))

/-- Witness for C7 at the upward unit normal. -/
theorem C7_slope_classification_witness :
    ¬ (is_ground_normal ⟨0, 0, 1⟩ ∧ is_wall_normal ⟨0, 0, 1⟩) :=
  (C7_slope_classification ⟨0, 0, 1⟩).2.2

/-! ## C9: degenerate leap direction -/

/-- C9: when the pounce target's planar distance from the start is within
the 0.01 degeneracy tolerance, `_start_pounce_to` does not fail: it
defaults the pounce direction to the unit forward vector `(0, 1, 0)`,
keeps the target at the start position, and still enters the active pounce
(attack state, pouncing set, not falling). -/
theorem C9_degenerate_pounce (s : SpState) (target : Vec3) (atk : Bool)
    (h : vlen ⟨target.x - s.pos.x, target.y - s.pos.y, 0⟩ ≤ 1 / 100) :
    (start_pounce_to s target atk).dir = some ⟨0, 1, 0⟩ ∧
    (start_pounce_to s target atk).pouncing = true ∧
    (start_pounce_to s target atk).falling = false ∧
    (start_pounce_to s target atk).target_pos = s.pos ∧
    (start_pounce_to s target atk).state = CState.attack := by
  simp only [start_pounce_to]
  rw [if_neg (not_lt.mpr h)]
  unfold set_state_sp
  split
  next hcond => exact ⟨rfl, rfl, rfl, rfl, hcond.1.symm⟩
  next => exact ⟨rfl, rfl, rfl, rfl, rfl⟩

/-- Witness for C9: a pounce started exactly at the spider's own position. -/
theorem C9_degenerate_pounce_witness :
    vlen ⟨(0 : ℝ) - 0, 0 - 0, 0⟩ ≤ 1 / 100 ∧
    (start_pounce_to sp0 ⟨0, 0, 0⟩ false).dir = some ⟨0, 1, 0⟩ ∧
    (start_pounce_to sp0 ⟨0, 0, 0⟩ false).pouncing = true ∧
    (start_pounce_to sp0 ⟨0, 0, 0⟩ false).state = CState.attack := by
  have h : vlen ⟨(0 : ℝ) - 0, 0 - 0, 0⟩ ≤ 1 / 100 := by
    rw [vlen]
    norm_num
  have h' := C9_degenerate_pounce sp0 ⟨0, 0, 0⟩ false (by simpa [sp0] using h)
  exact ⟨h, h'.1, h'.2.1, h'.2.2.2.2⟩

/-! ## Helper lemmas: flat ground and resting movers -/

/-- The upward unit normal counts as ground. -/
theorem up_is_ground : is_ground_normal ⟨0, 0, 1⟩ := by
  rw [is_ground_normal]
  norm_num [max_slope]

/-- In a world whose every ray reports flat ground at height `g`, the
nine-ray probe of `_check_ground` reports exactly `g`. -/
theorem ground_probe_flat (w : World) (g : ℝ)
    (hray : ∀ a b : Vec3, w.ray a b = some ⟨⟨a.x, a.y, g⟩, ⟨0, 0, 1⟩, false⟩)
    (px py pz : ℝ) :
    ground_probe w px py pz ground_offsets none = some g := by
  rw [ground_offsets]
  simp [ground_probe, hray, up_is_ground]

/-- On flat ground at the mover's own height, `_check_ground` is the
identity for an already grounded mover. -/
theorem check_ground_flat (w : World) (g : ℝ)
    (hray : ∀ a b : Vec3, w.ray a b = some ⟨⟨a.x, a.y, g⟩, ⟨0, 0, 1⟩, false⟩)
    (s : PState) (hz : s.pos.z = g) (hg : s.grounded = true) :
    check_ground w s = s := by
  have h2 : check_ground w s =
      if s.pos.z < g then
        ({ s with grounded := true, pos := ⟨s.pos.x, s.pos.y, g⟩,
                  vel := ⟨s.vel.x, s.vel.y, 0⟩ } : PState)
      else { s with grounded := true } := by
    unfold check_ground
    rw [ground_probe_flat w g hray s.pos.x s.pos.y s.pos.z]
  rw [h2, if_neg (by rw [hz]; exact lt_irrefl g)]
  cases s with
  | mk p v gr ch => simp_all

/-- A mover with zero velocity is not moved by `_slide_move`. -/
theorem slide_move_zero_vel (w : World) (s : PState) (dt : ℝ)
    (hv : s.vel = ⟨0, 0, 0⟩) :
    slide_move w s dt = s := by
  obtain ⟨⟨px, py, pz⟩, v, gr, ch⟩ := s
  simp only at hv
  subst hv
  norm_num [slide_move, Real.sqrt_zero]

/-- A grounded, resting mover on flat ground at its own height is a fixed
point of the per-tick step. -/
theorem player_step_fix (w : World) (g : ℝ)
    (hray : ∀ a b : Vec3, w.ray a b = some ⟨⟨a.x, a.y, g⟩, ⟨0, 0, 1⟩, false⟩)
    (s : PState) (dt : ℝ)
    (hg : s.grounded = true) (hv : s.vel = ⟨0, 0, 0⟩) (hz : s.pos.z = g) :
    player_step w s dt = s := by
  unfold player_step
  rw [if_neg (by rw [hg]; exact fun h => Bool.noConfusion h)]
  show check_ground w (slide_move w s dt) = s
  rw [slide_move_zero_vel w s dt hv]
  exact check_ground_flat w g hray s hz hg

/-- C6: a mover standing on flat, unobstructed ground (every downward probe
reports the constant walkable height `g`, the mover is grounded at height
`g` with zero velocity) keeps the same `position.z` across any number of
ticks of the per-tick step, for any `dt`. -/
theorem C6_ground_snap_idempotent (w : World) (g : ℝ) (s : PState) (dt : ℝ)
    (hray : ∀ a b : Vec3, w.ray a b = some ⟨⟨a.x, a.y, g⟩, ⟨0, 0, 1⟩, false⟩)
    (hg : s.grounded = true) (hv : s.vel = ⟨0, 0, 0⟩) (hz : s.pos.z = g) :
    ∀ n : ℕ, ((fun st => player_step w st dt)^[n] s).pos.z = s.pos.z := by
  intro n
  rw [Function.iterate_fixed (player_step_fix w g hray s dt hg hv hz) n]

/-- Witness for C6: the resting mover on the flat world, three ticks of
1/60 s. -/
theorem C6_ground_snap_idempotent_witness :
    ((fun st => player_step flat_world st (1 / 60))^[3] p_rest).pos.z = p_rest.pos.z ∧
    p_rest.grounded = true ∧ p_rest.vel = ⟨0, 0, 0⟩ ∧ p_rest.pos.z = 0 := by
  refine ⟨C6_ground_snap_idempotent flat_world 0 p_rest (1 / 60)
    (fun a b => rfl) rfl rfl rfl 3, rfl, rfl, rfl⟩

/-! ## Helper lemmas: unobstructed and probe-free movement -/

/-- With no ray hits anywhere, the ground probe never finds ground. -/
theorem ground_probe_none (w : World) (hray : ∀ a b : Vec3, w.ray a b = none) :
    ∀ (l : List (ℝ × ℝ)) (px py pz : ℝ) (b : Option ℝ),
      ground_probe w px py pz l b = b := by
  intro l
  induction l with
  | nil => intro _ _ _ _; rfl
  | cons hd tl ih =>
    intro px py pz b
    obtain ⟨ox, oy⟩ := hd
    simp only [ground_probe, hray]
    exact ih px py pz b

/-- With no ray hits anywhere, `_check_ground` only clears the grounded
flag. -/
theorem check_ground_no_hit (w : World) (hray : ∀ a b : Vec3, w.ray a b = none)
    (s : PState) :
    check_ground w s = { s with grounded := false } := by
  unfold check_ground
  rw [ground_probe_none w hray]

/-- The ground check never moves the mover horizontally. -/
theorem check_ground_keeps_xy (w : World) (s : PState) :
    (check_ground w s).pos.x = s.pos.x ∧ (check_ground w s).pos.y = s.pos.y := by
  unfold check_ground
  split
  next => split_ifs <;> exact ⟨rfl, rfl⟩
  next => exact ⟨rfl, rfl⟩

/-- When the destination test is clear and the displacement is at least the
1e-4 deadzone, `_slide_move` accepts the full horizontal displacement and
leaves the horizontal velocity unchanged. -/
theorem slide_move_unblocked (w : World) (s : PState) (dt : ℝ)
    (hfree : (test_position w s.current_height (s.pos.x + s.vel.x * dt)
      (s.pos.y + s.vel.y * dt) s.pos.z).1 = false)
    (hlen : 1 / 10000 ≤ Real.sqrt (s.vel.x * dt * (s.vel.x * dt) +
      s.vel.y * dt * (s.vel.y * dt))) :
    (slide_move w s dt).pos.x = s.pos.x + s.vel.x * dt ∧
    (slide_move w s dt).pos.y = s.pos.y + s.vel.y * dt ∧
    (slide_move w s dt).vel.x = s.vel.x ∧
    (slide_move w s dt).vel.y = s.vel.y := by
  simp only [slide_move]
  rw [if_pos hlen, if_pos hfree]
  split_ifs <;> simp

/-- The gravity pre-step of `update` never changes horizontal velocity,
position or capsule height. -/
theorem grav_step_fields (s : PState) (dt : ℝ) :
    ((if s.grounded = false then
        { s with vel := ⟨s.vel.x, s.vel.y, s.vel.z + gravity_acc * dt⟩ }
      else s) : PState).vel.x = s.vel.x ∧
    ((if s.grounded = false then
        { s with vel := ⟨s.vel.x, s.vel.y, s.vel.z + gravity_acc * dt⟩ }
      else s) : PState).vel.y = s.vel.y ∧
    ((if s.grounded = false then
        { s with vel := ⟨s.vel.x, s.vel.y, s.vel.z + gravity_acc * dt⟩ }
      else s) : PState).pos = s.pos ∧
    ((if s.grounded = false then
        { s with vel := ⟨s.vel.x, s.vel.y, s.vel.z + gravity_acc * dt⟩ }
      else s) : PState).current_height = s.current_height := by
  split_ifs <;> exact ⟨rfl, rfl, rfl, rfl⟩

/-- Below the 1e-4 deadzone and not moving upward, `_slide_move` only
integrates the vertical velocity. -/
theorem slide_move_deadzone (w : World) (s : PState) (dt : ℝ)
    (hlen : Real.sqrt (s.vel.x * dt * (s.vel.x * dt) +
      s.vel.y * dt * (s.vel.y * dt)) < 1 / 10000)
    (hvz : s.vel.z ≤ 0) :
    slide_move w s dt = { s with pos := ⟨s.pos.x, s.pos.y, s.pos.z + s.vel.z * dt⟩ } := by
  simp only [slide_move]
  rw [if_neg (not_le.mpr hlen)]
  rw [if_neg (not_lt.mpr hvz)]

/-- With a clear destination, a displacement above the deadzone and no
upward velocity, `_slide_move` moves by exactly the desired displacement. -/
theorem slide_move_unblocked_down (w : World) (s : PState) (dt : ℝ)
    (hfree : (test_position w s.current_height (s.pos.x + s.vel.x * dt)
      (s.pos.y + s.vel.y * dt) s.pos.z).1 = false)
    (hlen : 1 / 10000 ≤ Real.sqrt (s.vel.x * dt * (s.vel.x * dt) +
      s.vel.y * dt * (s.vel.y * dt)))
    (hvz : s.vel.z ≤ 0) :
    slide_move w s dt = { s with pos := ⟨s.pos.x + s.vel.x * dt,
      s.pos.y + s.vel.y * dt, s.pos.z + s.vel.z * dt⟩ } := by
  simp only [slide_move]
  rw [if_pos hlen, if_pos hfree]
  simp only []
  rw [if_neg (not_lt.mpr hvz)]

/-! ## C3: unobstructed movement exactness -/

/-- C3 counterexample: with no obstructions anywhere and wish velocity
`(1e-5, 0)` over `dt = 1`, the destination test reports no hit and the
desired displacement is nonzero, yet the step leaves the horizontal
position unchanged (the displacement is below `_slide_move`'s 1e-4
deadzone), so the step does not advance by exactly `wish_velocity_xy * dt`. -/
theorem C3_cex :
    (test_position no_hit_world p_tiny.current_height
      (p_tiny.pos.x + p_tiny.vel.x * 1) (p_tiny.pos.y + p_tiny.vel.y * 1)
      p_tiny.pos.z).1 = false ∧
    (player_step no_hit_world p_tiny 1).pos.x = p_tiny.pos.x ∧
    p_tiny.pos.x + p_tiny.vel.x * 1 ≠ p_tiny.pos.x := by
  have hs : Real.sqrt (p_tiny.vel.x * 1 * (p_tiny.vel.x * 1) +
      p_tiny.vel.y * 1 * (p_tiny.vel.y * 1)) = 1 / 100000 := by
    rw [show (p_tiny.vel.x * 1 * (p_tiny.vel.x * 1) +
        p_tiny.vel.y * 1 * (p_tiny.vel.y * 1) : ℝ) = (1 / 100000) ^ 2 by
      norm_num [p_tiny]]
    exact Real.sqrt_sq (by norm_num)
  refine ⟨rfl, ?_, by norm_num [p_tiny]⟩
  unfold player_step
  rw [if_neg (by simp [p_tiny])]
  show (check_ground no_hit_world (slide_move no_hit_world p_tiny 1)).pos.x =
    p_tiny.pos.x
  rw [check_ground_no_hit no_hit_world (fun _ _ => rfl)]
  show (slide_move no_hit_world p_tiny 1).pos.x = p_tiny.pos.x
  rw [slide_move_deadzone no_hit_world p_tiny 1 (by rw [hs]; norm_num) (le_refl 0)]

/-- C3 amended: over every step whose destination test reports no blocking
contact and whose desired displacement is at least the 1e-4 deadzone, the
per-tick step advances the horizontal position by exactly
`wish_velocity_xy * dt` (below the deadzone the horizontal move is skipped
entirely); the concrete scenario (mover at the origin, flat ground at
height 0 everywhere, wish velocity `(1, 0)`, `dt = 1`) ends at `(1, 0, 0)`
grounded, as witnessed separately. -/
theorem C3_unobstructed_exact (w : World) (s : PState) (dt : ℝ)
    (hfree : (test_position w s.current_height (s.pos.x + s.vel.x * dt)
      (s.pos.y + s.vel.y * dt) s.pos.z).1 = false)
    (hlen : 1 / 10000 ≤ Real.sqrt (s.vel.x * dt * (s.vel.x * dt) +
      s.vel.y * dt * (s.vel.y * dt))) :
    (player_step w s dt).pos.x = s.pos.x + s.vel.x * dt ∧
    (player_step w s dt).pos.y = s.pos.y + s.vel.y * dt := by
  simp only [player_step]
  obtain ⟨hvx, hvy, hpos, hch⟩ := grav_step_fields s dt
  obtain ⟨h1, h2, -, -⟩ := slide_move_unblocked w
    (if s.grounded = false then
      { s with vel := ⟨s.vel.x, s.vel.y, s.vel.z + gravity_acc * dt⟩ }
    else s) dt
    (by rw [hvx, hvy, hpos, hch]; exact hfree)
    (by rw [hvx, hvy]; exact hlen)
  have hcg := check_ground_keeps_xy w (slide_move w
    (if s.grounded = false then
      { s with vel := ⟨s.vel.x, s.vel.y, s.vel.z + gravity_acc * dt⟩ }
    else s) dt)
  constructor
  · rw [hcg.1, h1, hvx, hpos]
  · rw [hcg.2, h2, hvy, hpos]

/-- Witness for C3 (the spec's scenario): mover at the origin on flat
ground at height 0, wish velocity `(1, 0)`, `dt = 1`; the step lands at
`(1, 0, 0)` with the grounded flag set. -/
theorem C3_unobstructed_exact_witness :
    (test_position flat_world p_unit.current_height
      (p_unit.pos.x + p_unit.vel.x * 1) (p_unit.pos.y + p_unit.vel.y * 1)
      p_unit.pos.z).1 = false ∧
    1 / 10000 ≤ Real.sqrt (p_unit.vel.x * 1 * (p_unit.vel.x * 1) +
      p_unit.vel.y * 1 * (p_unit.vel.y * 1)) ∧
    (player_step flat_world p_unit 1).pos.x = 1 ∧
    (player_step flat_world p_unit 1).pos.y = 0 ∧
    (player_step flat_world p_unit 1).pos.z = 0 ∧
    (player_step flat_world p_unit 1).grounded = true := by
  have hlen : 1 / 10000 ≤ Real.sqrt (p_unit.vel.x * 1 * (p_unit.vel.x * 1) +
      p_unit.vel.y * 1 * (p_unit.vel.y * 1)) := by
    rw [show (p_unit.vel.x * 1 * (p_unit.vel.x * 1) +
        p_unit.vel.y * 1 * (p_unit.vel.y * 1) : ℝ) = 1 by norm_num [p_unit],
      Real.sqrt_one]
    norm_num
  have hmain := C3_unobstructed_exact flat_world p_unit 1 rfl hlen
  have hstep : player_step flat_world p_unit 1 =
      check_ground flat_world (slide_move flat_world p_unit 1) := by
    unfold player_step
    rw [if_neg (by simp [p_unit])]
  have hsm : slide_move flat_world p_unit 1 =
      (⟨⟨1, 0, 0⟩, ⟨1, 0, 0⟩, true, player_height⟩ : PState) := by
    rw [slide_move_unblocked_down flat_world p_unit 1 rfl hlen (le_refl 0)]
    norm_num [p_unit, player_height]
  have hcg : check_ground flat_world
      (⟨⟨1, 0, 0⟩, ⟨1, 0, 0⟩, true, player_height⟩ : PState) =
      (⟨⟨1, 0, 0⟩, ⟨1, 0, 0⟩, true, player_height⟩ : PState) :=
    check_ground_flat flat_world 0 (fun _ _ => rfl) _ rfl rfl
  refine ⟨rfl, hlen, hmain.1.trans (by norm_num [p_unit]),
    hmain.2.trans (by norm_num [p_unit]), ?_, ?_⟩
  · rw [hstep, hsm, hcg]
  · rw [hstep, hsm, hcg]

/-! ## Helper lemmas: blocked worlds -/

/-- The sideways wall normal `(-1, 0, 0)` is a wall for the slide test. -/
theorem neg_x_is_wall : is_wall_normal ⟨-1, 0, 0⟩ := by
  rw [is_wall_normal]
  norm_num [max_slope]

/-- The forward wall normal `(1, 0, 0)` is a wall for the slide test. -/
theorem pos_x_is_wall : is_wall_normal ⟨1, 0, 0⟩ := by
  rw [is_wall_normal]
  norm_num [max_slope]

/-- In the boxed-in world every position test is blocked with the wall
normal `(-1, 0, 0)`. -/
theorem all_wall_blocked (hgt x y z : ℝ) :
    (test_position all_wall_world hgt x y z).1 = true ∧
    (test_position all_wall_world hgt x y z).2 = some ⟨-1, 0, 0⟩ := by
  unfold test_position all_wall_world first_wall_contact
  simp [neg_x_is_wall]

/-- A boolean known to be true is not false. -/
theorem btf {b : Bool} (h : b = true) : ¬ (b = false) := by
  rw [h]
  exact fun hh => Bool.noConfusion hh

/-- In the boxed-in world the slide scan finds no free angle. -/
theorem all_wall_scan_none (hgt px py pz ma ml : ℝ) :
    ∀ l : List ℕ, slide_scan all_wall_world hgt px py pz ma ml l = none := by
  intro l
  induction l with
  | nil => rfl
  | cons d tl ih =>
    simp only [slide_scan]
    rw [if_neg (btf (all_wall_blocked hgt _ _ pz).1)]
    rw [if_neg (btf (all_wall_blocked hgt _ _ pz).1)]
    exact ih

/-- The square root of the unit mover's squared displacement over one
second is 1. -/
theorem p_unit_move_len :
    Real.sqrt (p_unit.vel.x * 1 * (p_unit.vel.x * 1) +
      p_unit.vel.y * 1 * (p_unit.vel.y * 1)) = 1 := by
  rw [show (p_unit.vel.x * 1 * (p_unit.vel.x * 1) +
      p_unit.vel.y * 1 * (p_unit.vel.y * 1) : ℝ) = 1 by norm_num [p_unit]]
  exact Real.sqrt_one

/-! ## C8: corner lock -/

/-- C8: when the horizontal displacement is above the deadzone, the
destination test is blocked and the angle scan finds no slide direction,
`_slide_move` zeroes the horizontal velocity for the frame and leaves the
horizontal position unchanged. -/
theorem C8_corner_lock (w : World) (s : PState) (dt : ℝ)
    (hlen : 1 / 10000 ≤ Real.sqrt (s.vel.x * dt * (s.vel.x * dt) +
      s.vel.y * dt * (s.vel.y * dt)))
    (hblocked : (test_position w s.current_height (s.pos.x + s.vel.x * dt)
      (s.pos.y + s.vel.y * dt) s.pos.z).1 = true)
    (hscan : slide_scan w s.current_height s.pos.x s.pos.y s.pos.z
      (atan2 (s.vel.y * dt) (s.vel.x * dt))
      (Real.sqrt (s.vel.x * dt * (s.vel.x * dt) + s.vel.y * dt * (s.vel.y * dt)))
      offsets_deg = none) :
    (slide_move w s dt).vel.x = 0 ∧ (slide_move w s dt).vel.y = 0 ∧
    (slide_move w s dt).pos.x = s.pos.x ∧ (slide_move w s dt).pos.y = s.pos.y := by
  simp only [slide_move]
  rw [if_pos hlen]
  rw [if_neg (btf hblocked)]
  rw [hscan]
  split_ifs <;> simp

/-- Witness for C8: the unit mover boxed in on all sides over one second. -/
theorem C8_corner_lock_witness :
    (test_position all_wall_world p_unit.current_height
      (p_unit.pos.x + p_unit.vel.x * 1) (p_unit.pos.y + p_unit.vel.y * 1)
      p_unit.pos.z).1 = true ∧
    (slide_move all_wall_world p_unit 1).vel.x = 0 ∧
    (slide_move all_wall_world p_unit 1).vel.y = 0 ∧
    (slide_move all_wall_world p_unit 1).pos.x = p_unit.pos.x ∧
    (slide_move all_wall_world p_unit 1).pos.y = p_unit.pos.y := by
  have h := C8_corner_lock all_wall_world p_unit 1
    (by rw [p_unit_move_len]; norm_num)
    (all_wall_blocked _ _ _ _).1
    (all_wall_scan_none _ _ _ _ _ _ offsets_deg)
  exact ⟨(all_wall_blocked _ _ _ _).1, h.1, h.2.1, h.2.2.1, h.2.2.2⟩

/-! ## C2: post-step velocity along a reported wall normal -/

/-- After `_slide_move` the horizontal velocity is either unchanged or
zeroed (slide found keeps it, corner lock zeroes it, the clear path and
deadzone branches keep it). -/
theorem slide_move_vel_cases (w : World) (s : PState) (dt : ℝ) :
    ((slide_move w s dt).vel.x = s.vel.x ∧ (slide_move w s dt).vel.y = s.vel.y) ∨
    ((slide_move w s dt).vel.x = 0 ∧ (slide_move w s dt).vel.y = 0) := by
  simp only [slide_move]
  cases hsc : slide_scan w s.current_height s.pos.x s.pos.y s.pos.z
      (atan2 (s.vel.y * dt) (s.vel.x * dt))
      (Real.sqrt (s.vel.x * dt * (s.vel.x * dt) + s.vel.y * dt * (s.vel.y * dt)))
      offsets_deg with
  | none => split_ifs <;> simp
  | some p =>
    obtain ⟨a, off⟩ := p
    split_ifs <;> simp

/-- C2 counterexample: a step in which the destination test reports a wall
whose normal is `(1, 0, 0)` (vertical component 0, below the slope limit)
while a slide direction is found, so the horizontal velocity is kept
unchanged and its component along the reported normal stays strictly
positive after the step. -/
theorem C2_cex :
    (test_position odd_normal_world p_unit.current_height
      (p_unit.pos.x + p_unit.vel.x * 1) (p_unit.pos.y + p_unit.vel.y * 1)
      p_unit.pos.z).2 = some ⟨1, 0, 0⟩ ∧
    (Vec3.mk 1 0 0).z < max_slope ∧
    ¬ ((slide_move odd_normal_world p_unit 1).vel.x * (Vec3.mk 1 0 0).x +
       (slide_move odd_normal_world p_unit 1).vel.y * (Vec3.mk 1 0 0).y ≤ 0) := by
  have hdest : (test_position odd_normal_world p_unit.current_height
      (p_unit.pos.x + p_unit.vel.x * 1) (p_unit.pos.y + p_unit.vel.y * 1)
      p_unit.pos.z).2 = some ⟨1, 0, 0⟩ ∧
      (test_position odd_normal_world p_unit.current_height
      (p_unit.pos.x + p_unit.vel.x * 1) (p_unit.pos.y + p_unit.vel.y * 1)
      p_unit.pos.z).1 = true := by
    simp only [test_position, odd_normal_world, first_wall_contact]
    rw [if_pos (show (p_unit.pos.y + p_unit.vel.y * 1 ≤ 0) ∧
      (1 / 2 ≤ p_unit.pos.x + p_unit.vel.x * 1) by norm_num [p_unit])]
    simp [first_wall_contact, pos_x_is_wall]
  have ha : atan2 (p_unit.vel.y * 1) (p_unit.vel.x * 1) = 0 := by
    show atan2 (0 * 1 : ℝ) (1 * 1) = 0
    norm_num [atan2, Real.arctan_zero]
  have hy : (0 : ℝ) < Real.sin (atan2 (p_unit.vel.y * 1) (p_unit.vel.x * 1) +
      ((10 : ℕ) : ℝ) * Real.pi / 180) := by
    rw [ha]
    apply Real.sin_pos_of_pos_of_lt_pi
    · have hpi := Real.pi_pos
      push_cast
      nlinarith
    · have hpi := Real.pi_pos
      push_cast
      nlinarith
  have hylt : (0 : ℝ) < p_unit.pos.y +
      Real.sin (atan2 (p_unit.vel.y * 1) (p_unit.vel.x * 1) +
        ((10 : ℕ) : ℝ) * Real.pi / 180) *
      Real.sqrt (p_unit.vel.x * 1 * (p_unit.vel.x * 1) +
        p_unit.vel.y * 1 * (p_unit.vel.y * 1)) := by
    rw [p_unit_move_len]
    have h0 : p_unit.pos.y = 0 := rfl
    rw [h0, mul_one, zero_add]
    exact hy
  have htest : (test_position odd_normal_world p_unit.current_height
      (p_unit.pos.x + Real.cos (atan2 (p_unit.vel.y * 1) (p_unit.vel.x * 1) +
        ((10 : ℕ) : ℝ) * Real.pi / 180) *
        Real.sqrt (p_unit.vel.x * 1 * (p_unit.vel.x * 1) +
        p_unit.vel.y * 1 * (p_unit.vel.y * 1)))
      (p_unit.pos.y + Real.sin (atan2 (p_unit.vel.y * 1) (p_unit.vel.x * 1) +
        ((10 : ℕ) : ℝ) * Real.pi / 180) *
        Real.sqrt (p_unit.vel.x * 1 * (p_unit.vel.x * 1) +
        p_unit.vel.y * 1 * (p_unit.vel.y * 1)))
      p_unit.pos.z).1 = false := by
    simp only [test_position, odd_normal_world, first_wall_contact]
    rw [if_neg (fun hcon => absurd hcon.1 (not_le.mpr hylt))]
    rfl
  have hscan : slide_scan odd_normal_world p_unit.current_height p_unit.pos.x
      p_unit.pos.y p_unit.pos.z (atan2 (p_unit.vel.y * 1) (p_unit.vel.x * 1))
      (Real.sqrt (p_unit.vel.x * 1 * (p_unit.vel.x * 1) +
        p_unit.vel.y * 1 * (p_unit.vel.y * 1))) offsets_deg =
      some (atan2 (p_unit.vel.y * 1) (p_unit.vel.x * 1) + ((10 : ℕ) : ℝ) * Real.pi / 180,
        ((10 : ℕ) : ℝ) * Real.pi / 180) := by
    simp only [offsets_deg, slide_scan]
    rw [if_pos htest]
  have hvel : (slide_move odd_normal_world p_unit 1).vel = p_unit.vel := by
    simp only [slide_move]
    rw [if_pos (show (1 : ℝ) / 10000 ≤ Real.sqrt (p_unit.vel.x * 1 * (p_unit.vel.x * 1) +
      p_unit.vel.y * 1 * (p_unit.vel.y * 1)) by rw [p_unit_move_len]; norm_num)]
    rw [if_neg (btf hdest.2)]
    rw [hscan]
    simp [p_unit]
  refine ⟨hdest.1, by norm_num [max_slope], ?_⟩
  rw [hvel]
  norm_num [p_unit]

/-- C2 amended: for every step in which the destination test reports a wall
normal and the pre-step horizontal velocity already points into or along
that wall (its component along the normal is at most 0), the post-step
horizontal velocity component along that normal is at most 0: sliding keeps
the velocity and corner lock zeroes it, and `_clip_velocity` is never
invoked to clip it in the remaining case. -/
theorem C2_no_penetration (w : World) (s : PState) (dt : ℝ) (n : Vec3)
    (hn : (test_position w s.current_height (s.pos.x + s.vel.x * dt)
      (s.pos.y + s.vel.y * dt) s.pos.z).2 = some n)
    (hpre : s.vel.x * n.x + s.vel.y * n.y ≤ 0) :
    (slide_move w s dt).vel.x * n.x + (slide_move w s dt).vel.y * n.y ≤ 0 := by
  rcases slide_move_vel_cases w s dt with ⟨hx, hy⟩ | ⟨hx, hy⟩
  · rw [hx, hy]; exact hpre
  · rw [hx, hy]; simp

/-- Witness for C2: the unit mover boxed in on all sides; the reported
normal is `(-1, 0, 0)` and the pre-step velocity points into it. -/
theorem C2_no_penetration_witness :
    (test_position all_wall_world p_unit.current_height
      (p_unit.pos.x + p_unit.vel.x * 1) (p_unit.pos.y + p_unit.vel.y * 1)
      p_unit.pos.z).2 = some ⟨-1, 0, 0⟩ ∧
    p_unit.vel.x * (Vec3.mk (-1) 0 0).x + p_unit.vel.y * (Vec3.mk (-1) 0 0).y ≤ 0 ∧
    (slide_move all_wall_world p_unit 1).vel.x * (Vec3.mk (-1) 0 0).x +
      (slide_move all_wall_world p_unit 1).vel.y * (Vec3.mk (-1) 0 0).y ≤ 0 := by
  refine ⟨(all_wall_blocked _ _ _ _).2, by norm_num [p_unit], ?_⟩
  exact C2_no_penetration all_wall_world p_unit 1 ⟨-1, 0, 0⟩
    (all_wall_blocked _ _ _ _).2 (by norm_num [p_unit])

/-! ## Helper lemmas: pounce controller -/

/-- A boolean known to be false is not true. -/
theorem bft {b : Bool} (h : b = false) : ¬ (b = true) := by
  rw [h]
  exact fun hh => Bool.noConfusion hh

/-- The frame travel distance ignores the progress and airborne fields. -/
theorem pounce_travel_congr (s : SpState) (p : ℝ) (a : Bool) (dt : ℝ) :
    pounce_travel { s with progress := p, airborne := a } dt = pounce_travel s dt := rfl

/-- Landing always clears the pouncing flag. -/
theorem spider_land_pouncing (s : SpState) : (spider_land s).pouncing = false := by
  simp only [spider_land]
  split_ifs <;> rfl

/-- Landing always clears the falling flag. -/
theorem spider_land_falling (s : SpState) : (spider_land s).falling = false := by
  simp only [spider_land]
  split_ifs <;> rfl

/-- Length of the scenario's planar leap vector. -/
theorem scenario_leap_len : vlen ⟨(4 : ℝ) - 0, (0 : ℝ) - 0, (0 : ℝ)⟩ = 4 := by
  show Real.sqrt (((4 : ℝ) - 0) * ((4 : ℝ) - 0) +
    ((0 : ℝ) - 0) * ((0 : ℝ) - 0) + 0 * 0) = 4
  rw [show (((4 : ℝ) - 0) * ((4 : ℝ) - 0) +
    ((0 : ℝ) - 0) * ((0 : ℝ) - 0) + 0 * 0 : ℝ) = 4 ^ 2 by norm_num]
  exact Real.sqrt_sq (by norm_num)

/-- Length of the normalized scenario leap vector. -/
theorem vlen_four : vlen ⟨(4 : ℝ), (0 : ℝ), (0 : ℝ)⟩ = 4 := by
  show Real.sqrt ((4 : ℝ) * 4 + (0 : ℝ) * 0 + (0 : ℝ) * 0) = 4
  rw [show ((4 : ℝ) * 4 + (0 : ℝ) * 0 + (0 : ℝ) * 0 : ℝ) = 4 ^ 2 by norm_num]
  exact Real.sqrt_sq (by norm_num)

/-- Fields of the scenario leap right after `start_pounce_to` from the
origin toward `(4, 0, 0)`. -/
theorem sp_leap_proj :
    sp_leap.pouncing = true ∧ sp_leap.falling = false ∧ sp_leap.airborne = false ∧
    sp_leap.is_attack = false ∧ sp_leap.hit_player = false ∧ sp_leap.progress = 0 ∧
    sp_leap.pos = ⟨0, 0, 0⟩ ∧ sp_leap.start_pos = ⟨0, 0, 0⟩ ∧
    sp_leap.target_pos = ⟨4, 0, 0⟩ ∧ sp_leap.dir = some ⟨1, 0, 0⟩ := by
  simp only [sp_leap, start_pounce_to, set_state_sp, sp0]
  rw [if_pos (show (1 : ℝ) / 100 < vlen ⟨(4 : ℝ) - 0, (0 : ℝ) - 0, (0 : ℝ)⟩ by
    rw [scenario_leap_len]; norm_num)]
  norm_num [scenario_leap_len, vlen_four, pounce_distance, min_self]
  split_ifs <;> simp

/-! ## C4: leap arc shape -/

/-- C4: the per-tick vertical arc offset of the pounce is
`arc_height * sin(progress * pi)`; it is 0 at progress 0, peaks at exactly
`arc_height` at progress 0.5 and returns to 0 at progress 1; and during the
first half of an unobstructed arc tick (no ground-follow blending, no wall)
the updated height is the start height plus exactly that offset. -/
theorem C4_leap_arc :
    (∀ t : ℝ, arc_offset t = pounce_arc_height * Real.sin (t * Real.pi)) ∧
    (arc_offset 0 = 0 ∧ arc_offset (1 / 2) = pounce_arc_height ∧ arc_offset 1 = 0) ∧
    (∀ (w : World) (its : Vec3 → Bool) (s : SpState) (dt : ℝ),
      s.pouncing = true → s.falling = false →
      min (s.progress + dt / pounce_duration) 1 ≤ 1 / 2 →
      (raycast_forward w s.pos (s.dir.getD ⟨0, 1, 0⟩)
        (pounce_travel s dt + 3 / 10)).1 = false →
      (update_pounce w its s dt).pos.z =
        s.start_pos.z + arc_offset (min (s.progress + dt / pounce_duration) 1)) := by
  refine ⟨fun t => rfl, ⟨?_, ?_, ?_⟩, ?_⟩
  · rw [arc_offset, zero_mul, Real.sin_zero, mul_zero]
  · rw [arc_offset, show (1 / 2 : ℝ) * Real.pi = Real.pi / 2 by ring,
      Real.sin_pi_div_two, mul_one]
  · rw [arc_offset, one_mul, Real.sin_pi, mul_zero]
  · intro w its s dt hp hf ht hrf
    simp only [update_pounce, pounce_travel_congr]
    rw [if_neg (btf hp), if_neg (bft hf)]
    rw [if_neg (not_lt.mpr ht)]
    rw [if_neg (bft hrf)]
    rw [if_neg (not_le.mpr (lt_of_le_of_lt ht (by norm_num)))]
    split_ifs <;> rfl

/-! ## C5: leap wall-hit transition -/

/-- One tick preserves the property that an active pounce is falling:
once falling, the pounce either keeps falling or lands (clearing the
pouncing flag); an inactive pounce stays inactive. -/
theorem pounce_fall_invariant (w : World) (its : Vec3 → Bool) (s : SpState)
    (h : s.pouncing = true → s.falling = true) (dt : ℝ) :
    (update_pounce w its s dt).pouncing = true →
    (update_pounce w its s dt).falling = true := by
  intro hp'
  by_cases hp : s.pouncing = true
  · have hf := h hp
    simp only [update_pounce] at hp' ⊢
    rw [if_neg (btf hp)] at hp' ⊢
    rw [if_pos hf] at hp' ⊢
    revert hp'
    cases hg : raycast_down w s.pos with
    | some g =>
      intro hp'
      dsimp only [] at hp' ⊢
      split_ifs at hp' ⊢ with hle
      · rw [spider_land_pouncing] at hp'
        exact absurd hp' (by simp)
      · exact hf
    | none =>
      intro hp'
      exact hf
  · have hps : s.pouncing = false := by
      cases hb : s.pouncing
      · rfl
      · exact absurd hb hp
    have hs : update_pounce w its s dt = s := by
      simp only [update_pounce]
      rw [if_pos hps]
    rw [hs] at hp'
    exact absurd hp' hp

/-- The falling invariant holds along any sequence of ticks. -/
theorem pounce_fall_run (w : World) (its : Vec3 → Bool) :
    ∀ (dts : List ℝ) (s : SpState), (s.pouncing = true → s.falling = true) →
    ((dts.foldl (update_pounce w its) s).pouncing = true →
      (dts.foldl (update_pounce w its) s).falling = true)
  | [], _, h => h
  | dt :: rest, s, h => by
    simp only [List.foldl_cons]
    exact pounce_fall_run w its rest _ (pounce_fall_invariant w its s h dt)

/-- C5: when the forward obstruction check reports a wall during an arcing
tick at progress below 1, the controller enters the falling phase on that
same tick, and no later tick of the same leap instance is ever arcing
again (it keeps falling until landing ends the pounce). -/
theorem C5_wall_hit_falls (w : World) (its : Vec3 → Bool) (s : SpState) (dt : ℝ)
    (harc : s.pouncing = true ∧ s.falling = false)
    (hprog : min (s.progress + dt / pounce_duration) 1 < 1)
    (hwall : (raycast_forward w s.pos (s.dir.getD ⟨0, 1, 0⟩)
      (pounce_travel s dt + 3 / 10)).1 = true) :
    FallingS (update_pounce w its s dt) ∧
    ∀ dts : List ℝ, ¬ Arcing (dts.foldl (update_pounce w its) (update_pounce w its s dt)) := by
  have hstep : (update_pounce w its s dt).pouncing = true ∧
      (update_pounce w its s dt).falling = true := by
    simp only [update_pounce, pounce_travel_congr]
    rw [if_neg (btf harc.1), if_neg (bft harc.2)]
    rw [if_pos hwall]
    exact ⟨harc.1, rfl⟩
  refine ⟨⟨hstep.1, hstep.2⟩, ?_⟩
  intro dts hA
  have hfall := pounce_fall_run w its dts (update_pounce w its s dt)
    (fun _ => hstep.2) hA.1
  exact Bool.noConfusion (hA.2.symm.trans hfall)

/-- Unobstructed arcing tick: horizontal lerp toward the target by the
clamped progress, and the pounce stays active and not falling. -/
theorem update_pounce_arcing_step (w : World) (its : Vec3 → Bool) (s : SpState)
    (dt : ℝ) (hp : s.pouncing = true) (hf : s.falling = false)
    (ht2 : min (s.progress + dt / pounce_duration) 1 ≤ 1 / 2)
    (hrf : (raycast_forward w s.pos (s.dir.getD ⟨0, 1, 0⟩)
      (pounce_travel s dt + 3 / 10)).1 = false) :
    (update_pounce w its s dt).pos.x = s.start_pos.x +
      (s.target_pos.x - s.start_pos.x) * min (s.progress + dt / pounce_duration) 1 ∧
    (update_pounce w its s dt).pos.y = s.start_pos.y +
      (s.target_pos.y - s.start_pos.y) * min (s.progress + dt / pounce_duration) 1 ∧
    (update_pounce w its s dt).pouncing = true ∧
    (update_pounce w its s dt).falling = false := by
  simp only [update_pounce, pounce_travel_congr]
  rw [if_neg (btf hp), if_neg (bft hf)]
  rw [if_neg (not_lt.mpr ht2)]
  rw [if_neg (bft hrf)]
  rw [if_neg (not_le.mpr (lt_of_le_of_lt ht2 (by norm_num)))]
  split_ifs <;> exact ⟨rfl, rfl, hp, hf⟩

/-- Witness for C4 (the spec's scenario): the leap from the origin toward
`(4, 0, 0)` after an accumulated `dt` of 0.2 s (progress one half) sits at
`(2, 0, 1.5)` — the horizontal midpoint, lifted by the full arc height —
and is still arcing. -/
theorem C4_leap_arc_witness :
    sp_leap.pouncing = true ∧ sp_leap.falling = false ∧
    min (sp_leap.progress + (1 / 5) / pounce_duration) 1 ≤ 1 / 2 ∧
    (raycast_forward no_hit_world sp_leap.pos (sp_leap.dir.getD ⟨0, 1, 0⟩)
      (pounce_travel sp_leap (1 / 5) + 3 / 10)).1 = false ∧
    (update_pounce no_hit_world (fun _ => false) sp_leap (1 / 5)).pos.x = 2 ∧
    (update_pounce no_hit_world (fun _ => false) sp_leap (1 / 5)).pos.y = 0 ∧
    (update_pounce no_hit_world (fun _ => false) sp_leap (1 / 5)).pos.z = 3 / 2 ∧
    Arcing (update_pounce no_hit_world (fun _ => false) sp_leap (1 / 5)) := by
  obtain ⟨h1, h2, h3, h4, h5, h6, h7, h8, h9, h10⟩ := sp_leap_proj
  have ht : min (sp_leap.progress + (1 / 5) / pounce_duration) 1 = 1 / 2 := by
    rw [h6, show (0 : ℝ) + 1 / 5 / pounce_duration = 1 / 2 by
      norm_num [pounce_duration]]
    exact min_eq_left (by norm_num)
  have hz := C4_leap_arc.2.2 no_hit_world (fun _ => false) sp_leap (1 / 5)
    h1 h2 (le_of_eq ht) rfl
  obtain ⟨hx, hy, hpo, hfa⟩ := update_pounce_arcing_step no_hit_world
    (fun _ => false) sp_leap (1 / 5) h1 h2 (le_of_eq ht) rfl
  refine ⟨h1, h2, le_of_eq ht, rfl, ?_, ?_, ?_, hpo, hfa⟩
  · rw [hx, ht, h8, h9]
    norm_num
  · rw [hy, ht, h8, h9]
    norm_num
  · rw [hz, ht, h8]
    rw [show arc_offset (1 / 2) = pounce_arc_height from C4_leap_arc.2.1.2.1]
    norm_num [pounce_arc_height]

/-- Witness for C5: the scenario leap against a world whose forward ray
always reports a wall; the first tick switches the pounce to falling, and
a further tick is still not arcing. -/
theorem C5_wall_hit_falls_witness :
    (raycast_forward wall_ray_world sp_leap.pos (sp_leap.dir.getD ⟨0, 1, 0⟩)
      (pounce_travel sp_leap (1 / 5) + 3 / 10)).1 = true ∧
    min (sp_leap.progress + (1 / 5) / pounce_duration) 1 < 1 ∧
    FallingS (update_pounce wall_ray_world (fun _ => false) sp_leap (1 / 5)) ∧
    ¬ Arcing (update_pounce wall_ray_world (fun _ => false)
      (update_pounce wall_ray_world (fun _ => false) sp_leap (1 / 5)) (1 / 10)) := by
  obtain ⟨h1, h2, h3, h4, h5, h6, h7, h8, h9, h10⟩ := sp_leap_proj
  have hw : (raycast_forward wall_ray_world sp_leap.pos (sp_leap.dir.getD ⟨0, 1, 0⟩)
      (pounce_travel sp_leap (1 / 5) + 3 / 10)).1 = true := by
    norm_num [raycast_forward, wall_ray_world]
  have hpr : min (sp_leap.progress + (1 / 5) / pounce_duration) 1 < 1 := by
    rw [h6, show (0 : ℝ) + 1 / 5 / pounce_duration = 1 / 2 by
      norm_num [pounce_duration]]
    rw [min_eq_left (by norm_num)]
    norm_num
  have h := C5_wall_hit_falls wall_ray_world (fun _ => false) sp_leap (1 / 5)
    ⟨h1, h2⟩ hpr hw
  refine ⟨hw, hpr, h.1, ?_⟩
  have h2' := h.2 [1 / 10]
  simpa using h2'

/-! ## Helper lemmas: the slit world -/

/-- The movement angle of the unit mover is 0. -/
theorem atan2_unit : atan2 (p_unit.vel.y * 1) (p_unit.vel.x * 1) = 0 := by
  show atan2 (0 * 1 : ℝ) (1 * 1) = 0
  norm_num [atan2, Real.arctan_zero]

/-- Jordan bound: the sine of any scan angle between 10 and 90 degrees is
at least 1/100. -/
theorem sin_deg_ge (d : ℕ) (hd1 : 10 ≤ d) (hd2 : d ≤ 90) :
    1 / 100 ≤ Real.sin ((d : ℝ) * Real.pi / 180) := by
  have hpi := Real.pi_pos
  have hd1' : (10 : ℝ) ≤ (d : ℝ) := by exact_mod_cast hd1
  have hd2' : (d : ℝ) ≤ 90 := by exact_mod_cast hd2
  have hx0 : (0 : ℝ) ≤ (d : ℝ) * Real.pi / 180 := by positivity
  have hx2 : (d : ℝ) * Real.pi / 180 ≤ Real.pi / 2 := by nlinarith
  have h := Real.mul_le_sin hx0 hx2
  have heq : (2 : ℝ) / Real.pi * ((d : ℝ) * Real.pi / 180) = (d : ℝ) / 90 := by
    field_simp
    ring
  rw [heq] at h
  linarith

/-- The destination of the unit mover in the slit world is blocked (the end
wall). -/
theorem slit_blocked_dest :
    (test_position slit_world p_unit.current_height
      (p_unit.pos.x + p_unit.vel.x * 1) (p_unit.pos.y + p_unit.vel.y * 1)
      p_unit.pos.z).1 = true := by
  simp only [test_position, slit_world]
  rw [if_pos (Or.inl (show (1 : ℝ) / 5 ≤ p_unit.pos.x + p_unit.vel.x * 1 by
    norm_num [p_unit]))]
  simp [first_wall_contact, neg_x_is_wall]

/-- Every left scan angle of the unit mover is blocked in the slit world
(the side walls). -/
theorem slit_left_blocked (d : ℕ) (hd : 10 ≤ d ∧ d ≤ 90) :
    (test_position slit_world p_unit.current_height
      (p_unit.pos.x + Real.cos (atan2 (p_unit.vel.y * 1) (p_unit.vel.x * 1) +
        (d : ℝ) * Real.pi / 180) * Real.sqrt (p_unit.vel.x * 1 * (p_unit.vel.x * 1) +
        p_unit.vel.y * 1 * (p_unit.vel.y * 1)))
      (p_unit.pos.y + Real.sin (atan2 (p_unit.vel.y * 1) (p_unit.vel.x * 1) +
        (d : ℝ) * Real.pi / 180) * Real.sqrt (p_unit.vel.x * 1 * (p_unit.vel.x * 1) +
        p_unit.vel.y * 1 * (p_unit.vel.y * 1)))
      p_unit.pos.z).1 = true := by
  have habs : 1 / 100 ≤ |p_unit.pos.y +
      Real.sin (atan2 (p_unit.vel.y * 1) (p_unit.vel.x * 1) +
        (d : ℝ) * Real.pi / 180) * Real.sqrt (p_unit.vel.x * 1 * (p_unit.vel.x * 1) +
        p_unit.vel.y * 1 * (p_unit.vel.y * 1))| := by
    rw [atan2_unit, p_unit_move_len, zero_add, mul_one,
      show p_unit.pos.y = (0 : ℝ) from rfl, zero_add]
    exact le_trans (sin_deg_ge d hd.1 hd.2) (le_abs_self _)
  simp only [test_position, slit_world]
  rw [if_pos (Or.inr habs)]
  simp [first_wall_contact, neg_x_is_wall]

/-- Every right scan angle of the unit mover is blocked in the slit world
(the side walls). -/
theorem slit_right_blocked (d : ℕ) (hd : 10 ≤ d ∧ d ≤ 90) :
    (test_position slit_world p_unit.current_height
      (p_unit.pos.x + Real.cos (atan2 (p_unit.vel.y * 1) (p_unit.vel.x * 1) -
        (d : ℝ) * Real.pi / 180) * Real.sqrt (p_unit.vel.x * 1 * (p_unit.vel.x * 1) +
        p_unit.vel.y * 1 * (p_unit.vel.y * 1)))
      (p_unit.pos.y + Real.sin (atan2 (p_unit.vel.y * 1) (p_unit.vel.x * 1) -
        (d : ℝ) * Real.pi / 180) * Real.sqrt (p_unit.vel.x * 1 * (p_unit.vel.x * 1) +
        p_unit.vel.y * 1 * (p_unit.vel.y * 1)))
      p_unit.pos.z).1 = true := by
  have habs : 1 / 100 ≤ |p_unit.pos.y +
      Real.sin (atan2 (p_unit.vel.y * 1) (p_unit.vel.x * 1) -
        (d : ℝ) * Real.pi / 180) * Real.sqrt (p_unit.vel.x * 1 * (p_unit.vel.x * 1) +
        p_unit.vel.y * 1 * (p_unit.vel.y * 1))| := by
    rw [atan2_unit, p_unit_move_len, zero_sub, mul_one, Real.sin_neg,
      show p_unit.pos.y = (0 : ℝ) from rfl, zero_add, abs_neg]
    exact le_trans (sin_deg_ge d hd.1 hd.2) (le_abs_self _)
  simp only [test_position, slit_world]
  rw [if_pos (Or.inr habs)]
  simp [first_wall_contact, neg_x_is_wall]

/-- In the slit world the unit mover's slide scan fails at every offset. -/
theorem slit_scan_none : ∀ l : List ℕ, (∀ d ∈ l, 10 ≤ d ∧ d ≤ 90) →
    slide_scan slit_world p_unit.current_height p_unit.pos.x p_unit.pos.y
      p_unit.pos.z (atan2 (p_unit.vel.y * 1) (p_unit.vel.x * 1))
      (Real.sqrt (p_unit.vel.x * 1 * (p_unit.vel.x * 1) +
        p_unit.vel.y * 1 * (p_unit.vel.y * 1))) l = none
  | [], _ => rfl
  | d :: tl, h => by
    simp only [slide_scan]
    rw [if_neg (btf (slit_left_blocked d (h d (by simp))))]
    rw [if_neg (btf (slit_right_blocked d (h d (by simp))))]
    exact slit_scan_none tl (fun x hx => h x (by simp [hx]))

/-! ## C1: slide resolution -/

/-- C1 counterexample: the unit mover in the slit corridor.  The code's
`_slide_move` finds no free scan angle and corner-locks: position unchanged,
horizontal velocity zeroed.  The spec's sweep-and-slide algorithm on the
same world (sweep hit at fraction 0.2, wall normal `(-1, 0, 0)`, epsilon
0.01) advances to `x = 0.19` and stops after projecting the residual to
zero — so the mover does not move to the hit fraction minus epsilon. -/
theorem C1_cex :
    (slide_move slit_world p_unit 1).pos.x = 0 ∧
    (slide_move slit_world p_unit 1).pos.y = 0 ∧
    (slide_move slit_world p_unit 1).vel.x = 0 ∧
    spec_slide_xy slit_world.sweep (1 / 100) 4 ⟨0, 0, 0⟩ ⟨1, 0, 0⟩ = ⟨19 / 100, 0, 0⟩ ∧
    (0 : ℝ) ≠ 19 / 100 := by
  have hlock : (slide_move slit_world p_unit 1).pos.x = p_unit.pos.x ∧
      (slide_move slit_world p_unit 1).pos.y = p_unit.pos.y ∧
      (slide_move slit_world p_unit 1).vel.x = 0 := by
    simp only [slide_move]
    rw [if_pos (show (1 : ℝ) / 10000 ≤ Real.sqrt (p_unit.vel.x * 1 * (p_unit.vel.x * 1) +
      p_unit.vel.y * 1 * (p_unit.vel.y * 1)) by rw [p_unit_move_len]; norm_num)]
    rw [if_neg (btf slit_blocked_dest)]
    rw [slit_scan_none offsets_deg (by decide)]
    split_ifs <;> simp
  have hspec : spec_slide_xy slit_world.sweep (1 / 100) 4 ⟨0, 0, 0⟩ ⟨1, 0, 0⟩ =
      ⟨19 / 100, 0, 0⟩ := by
    norm_num [spec_slide_xy, slit_world, vadd, vscale, vsub, vdot, max_slope]
  exact ⟨hlock.1, hlock.2.1, hlock.2.2, hspec, by norm_num⟩

/-- C1 amended: `_slide_move` resolves horizontal movement with a single
destination overlap test and an angle scan, not with sweep fractions or
normal projection.  Above the 1e-4 deadzone: with a clear destination the
full displacement is accepted and the velocity kept; with a blocked
destination the mover moves to the first unblocked scan angle at
cosine-scaled speed keeping its velocity, and if every angle is blocked it
leaves the horizontal position unchanged and zeroes the horizontal
velocity. -/
theorem C1_slide_resolution (w : World) (s : PState) (dt : ℝ)
    (hlen : 1 / 10000 ≤ Real.sqrt (s.vel.x * dt * (s.vel.x * dt) +
      s.vel.y * dt * (s.vel.y * dt))) :
    ((test_position w s.current_height (s.pos.x + s.vel.x * dt)
        (s.pos.y + s.vel.y * dt) s.pos.z).1 = false →
      (slide_move w s dt).pos.x = s.pos.x + s.vel.x * dt ∧
      (slide_move w s dt).pos.y = s.pos.y + s.vel.y * dt ∧
      (slide_move w s dt).vel.x = s.vel.x ∧ (slide_move w s dt).vel.y = s.vel.y) ∧
    ((test_position w s.current_height (s.pos.x + s.vel.x * dt)
        (s.pos.y + s.vel.y * dt) s.pos.z).1 = true →
      match slide_scan w s.current_height s.pos.x s.pos.y s.pos.z
        (atan2 (s.vel.y * dt) (s.vel.x * dt))
        (Real.sqrt (s.vel.x * dt * (s.vel.x * dt) + s.vel.y * dt * (s.vel.y * dt)))
        offsets_deg with
      | some p =>
        (slide_move w s dt).pos.x = s.pos.x + Real.cos p.1 *
          Real.sqrt (s.vel.x * dt * (s.vel.x * dt) + s.vel.y * dt * (s.vel.y * dt)) *
          Real.cos p.2 ∧
        (slide_move w s dt).pos.y = s.pos.y + Real.sin p.1 *
          Real.sqrt (s.vel.x * dt * (s.vel.x * dt) + s.vel.y * dt * (s.vel.y * dt)) *
          Real.cos p.2 ∧
        (slide_move w s dt).vel.x = s.vel.x ∧ (slide_move w s dt).vel.y = s.vel.y
      | none =>
        (slide_move w s dt).vel.x = 0 ∧ (slide_move w s dt).vel.y = 0 ∧
        (slide_move w s dt).pos.x = s.pos.x ∧ (slide_move w s dt).pos.y = s.pos.y) := by
  constructor
  · intro hfree
    exact slide_move_unblocked w s dt hfree hlen
  · intro hb
    cases hsc : slide_scan w s.current_height s.pos.x s.pos.y s.pos.z
        (atan2 (s.vel.y * dt) (s.vel.x * dt))
        (Real.sqrt (s.vel.x * dt * (s.vel.x * dt) + s.vel.y * dt * (s.vel.y * dt)))
        offsets_deg with
    | none =>
      simp only [slide_move]
      rw [if_pos hlen, if_neg (btf hb), hsc]
      split_ifs <;> simp
    | some p =>
      obtain ⟨a, off⟩ := p
      simp only [slide_move]
      rw [if_pos hlen, if_neg (btf hb), hsc]
      split_ifs <;> simp

/-- Witness for C1 at the slit corridor: the destination is blocked, the
scan finds nothing, and the amended corner-lock behavior follows. -/
theorem C1_slide_resolution_witness :
    1 / 10000 ≤ Real.sqrt (p_unit.vel.x * 1 * (p_unit.vel.x * 1) +
      p_unit.vel.y * 1 * (p_unit.vel.y * 1)) ∧
    (test_position slit_world p_unit.current_height
      (p_unit.pos.x + p_unit.vel.x * 1) (p_unit.pos.y + p_unit.vel.y * 1)
      p_unit.pos.z).1 = true ∧
    (slide_move slit_world p_unit 1).vel.x = 0 ∧
    (slide_move slit_world p_unit 1).vel.y = 0 ∧
    (slide_move slit_world p_unit 1).pos.x = p_unit.pos.x := by
  have hlen : 1 / 10000 ≤ Real.sqrt (p_unit.vel.x * 1 * (p_unit.vel.x * 1) +
      p_unit.vel.y * 1 * (p_unit.vel.y * 1)) := by
    rw [p_unit_move_len]
    norm_num
  have h := (C1_slide_resolution slit_world p_unit 1 hlen).2 slit_blocked_dest
  rw [slit_scan_none offsets_deg (by decide)] at h
  exact ⟨hlen, slit_blocked_dest, h.1, h.2.1, h.2.2.1⟩
